import Mathlib

/-
Verification of the sliding-puzzle engine in `src/lib/puzzle.ts`.

The TypeScript functions are embedded shallowly:

* a grid cell holds a JS value: `some v` for a number, `none` for `undefined`;
* JS array reads/writes are modelled exactly, including out-of-range reads
  giving `undefined` and writes at negative indices leaving the entries alone;
* a `TypeError` that escapes a function (indexing into an `undefined` row) is
  modelled by an `Option`/`MoveResult` failure value;
* `Math.random()` inside `shufflePuzzle` is modelled by an explicit stream of
  draws, one per loop iteration;
* copy-on-write (`grid.map(row => [...row])`) is the identity under value
  semantics, so "the input state is untouched" holds by construction.
-/

/-- A JS value stored in a grid cell: `none` models `undefined`, `some v` a number. -/
abbrev Cell := Option Int

/-- The `grid` field: an array of row arrays. -/
abbrev Grid := List (List Cell)

/-- The `PuzzleState` interface (puzzle.ts:10-15). -/
structure PuzzleState where
  grid : Grid
  emptyRow : Int
  emptyCol : Int
  size : Int
deriving DecidableEq

/-- JS read `g[r]` on the outer array: `none` models `undefined` (index out of range). -/
def jsGetRow (g : Grid) (r : Int) : Option (List Cell) :=
  if h : 0 ≤ r ∧ r.toNat < g.length then some (g.get ⟨r.toNat, h.2⟩) else none

/-- JS read `row[c]` on a row array: the stored value if `c` is in range,
`undefined` (`none`) otherwise. -/
def jsGetCell (row : List Cell) (c : Int) : Cell :=
  if h : 0 ≤ c ∧ c.toNat < row.length then row.get ⟨c.toNat, h.2⟩ else none

/-- JS write `row[c] = v`: a negative index stores a non-index property, leaving the
array entries unchanged; `c` equal to the length appends; beyond it fills the gap with
holes, which read back as `undefined`. -/
def jsSetEntry (row : List Cell) (c : Int) (v : Cell) : List Cell :=
  if c < 0 then row
  else if c.toNat < row.length then row.set c.toNat v
  else row ++ List.replicate (c.toNat - row.length) (none : Cell) ++ [v]

/-- JS write `g[r][c] = v` for the case where `g[r]` is an existing row array; an
out-of-range `r` leaves the grid unchanged (the embedded functions below only reach
the write after a read that throws first in that case). -/
def jsSetCell (g : Grid) (r c : Int) (v : Cell) : Grid :=
  if h : 0 ≤ r ∧ r.toNat < g.length then
    g.set r.toNat (jsSetEntry (g.get ⟨r.toNat, h.2⟩) c v)
  else g

/-- The compound read `g[r][c]`: `none` models a thrown `TypeError` (the row itself is
`undefined`); otherwise `some` of the JS value found, which is itself `undefined`
when `c` is out of range. -/
def readCell (g : Grid) (r c : Int) : Option Cell :=
  match jsGetRow g r with
  | none => none
  | some row => some (jsGetCell row c)

/-- The function `createSolvedPuzzle` (puzzle.ts:21-37). The nested loops fill cell
`(i, j)` with the running counter `i*size + j + 1`; then `grid[size-1][size-1] = 0`.
For `size <= 0` the grid stays empty, `grid[size-1]` is `undefined`, and the final
write throws a `TypeError`: result `none`. -/
def createSolvedPuzzle (size : Int) : Option PuzzleState :=
  let n := size.toNat
  let grid : Grid :=
    (List.range n).map (fun i => (List.range n).map (fun j => some ((i * n + j + 1 : Nat) : Int)))
  match jsGetRow grid (size - 1) with
  | none => none
  | some _ =>
    some { grid := jsSetCell grid (size - 1) (size - 1) (some 0)
           emptyRow := size - 1
           emptyCol := size - 1
           size := size }

/-- The function `canMove` (puzzle.ts:79-89): Manhattan-distance-1 adjacency to the
cached blank coordinates; no grid access and no bounds check. -/
def canMove (s : PuzzleState) (row col : Int) : Bool :=
  ((row - s.emptyRow).natAbs == 1 && col == s.emptyCol) ||
  ((col - s.emptyCol).natAbs == 1 && row == s.emptyRow)

/-- Outcome of `movePiece`: the JS function returns `null`, returns a fresh state, or
lets a `TypeError` escape (it indexed into an `undefined` row). -/
inductive MoveResult where
  | thrown
  | nullResult
  | ok (s : PuzzleState)
deriving DecidableEq

/-- The function `movePiece` (puzzle.ts:91-113). After the `canMove` guard it copies the
grid and runs `newGrid[emptyRow][emptyCol] = newGrid[row][col]; newGrid[row][col] = 0`.
The right-hand read throws when `row` is out of range; the assignment target throws
when `emptyRow` is out of range; otherwise both writes go through on the copy. -/
def movePiece (s : PuzzleState) (row col : Int) : MoveResult :=
  if !canMove s row col then .nullResult
  else
    match jsGetRow s.grid row with
    | none => .thrown
    | some rowArr =>
      match jsGetRow s.grid s.emptyRow with
      | none => .thrown
      | some _ =>
        let g1 := jsSetCell s.grid s.emptyRow s.emptyCol (jsGetCell rowArr col)
        let g2 := jsSetCell g1 row col (some 0)
        .ok { grid := g2, emptyRow := row, emptyCol := col, size := s.size }

/-- The value stored at `g[r][c]`, with `undefined` both for an out-of-range column and
for a missing row (used only where the row is known to exist). -/
def cellAt (g : Grid) (r c : Int) : Cell :=
  (readCell g r c).getD none

/-- The state `movePiece` returns when the move goes through: the blank's old cell
receives the value read at `(row, col)` and `(row, col)` receives the literal `0` the
implementation writes; the cached blank coordinates become `(row, col)`. -/
def movedState (s : PuzzleState) (row col : Int) : PuzzleState :=
  { grid := jsSetCell (jsSetCell s.grid s.emptyRow s.emptyCol (cellAt s.grid row col))
      row col (some 0)
    emptyRow := row
    emptyCol := col
    size := s.size }

/-- An `n × n` rectangular grid. -/
def Rect (g : Grid) (n : Nat) : Prop :=
  g.length = n ∧ ∀ row ∈ g, row.length = n

/-- The four candidate directions of the shuffle (puzzle.ts:41-46): up, down, left, right. -/
def directions : List (Int × Int) := [(-1, 0), (1, 0), (0, -1), (0, 1)]

/-- The `validMoves` filter of the shuffle loop (puzzle.ts:49-58): directions that keep
the blank inside `[0, size)` on both axes. -/
def validMoves (s : PuzzleState) : List (Int × Int) :=
  directions.filter (fun d =>
    decide (0 ≤ s.emptyRow + d.1) && decide (s.emptyRow + d.1 < s.size) &&
    decide (0 ≤ s.emptyCol + d.2) && decide (s.emptyCol + d.2 < s.size))

/-- The three-statement swap in the shuffle loop body (puzzle.ts:67-70); `none` models a
thrown `TypeError` from indexing into an `undefined` row. -/
def swapCells (g : Grid) (r1 c1 r2 c2 : Int) : Option Grid :=
  match jsGetRow g r1 with
  | none => none
  | some row1 =>
    match jsGetRow g r2 with
    | none => none
    | some row2 =>
      let g1 := jsSetCell g r1 c1 (jsGetCell row2 c2)
      some (jsSetCell g1 r2 c2 (jsGetCell row1 c1))

/-- The shuffle loop (puzzle.ts:48-74). The stream `rng` models the successive values of
`Math.floor(Math.random() * validMoves.length)`: the draw of iteration `i` is `rng i`
reduced modulo the number of valid moves, which ranges over exactly the values the JS
expression can produce. The loop breaks when no direction is valid. -/
def shuffleLoop (rng : Nat → Nat) : Nat → Nat → PuzzleState → Option PuzzleState
  | 0, _, s => some s
  | k + 1, i, s =>
    let vm := validMoves s
    if h : vm.length = 0 then some s
    else
      let d := vm.get ⟨rng i % vm.length, Nat.mod_lt _ (Nat.pos_of_ne_zero h)⟩
      let nr := s.emptyRow + d.1
      let nc := s.emptyCol + d.2
      match swapCells s.grid s.emptyRow s.emptyCol nr nc with
      | none => none
      | some g =>
        shuffleLoop rng k (i + 1) { grid := g, emptyRow := nr, emptyCol := nc, size := s.size }

/-- The function `shufflePuzzle` (puzzle.ts:39-77). It first takes a deep copy of the
input state (the identity under value semantics) and then runs the loop `moves` times;
the `for` loop with a bound `moves <= 0` runs zero times, hence `Int.toNat`. -/
def shufflePuzzle (s : PuzzleState) (moves : Int) (rng : Nat → Nat) : Option PuzzleState :=
  shuffleLoop rng moves.toNat 0 s

/-- Row-major list of the coordinates the `isSolved` double loop visits. -/
def coordList (n : Nat) : List (Int × Int) :=
  (List.range n).flatMap (fun i => (List.range n).map (fun j => (Int.ofNat i, Int.ofNat j)))

/-- The double loop of `isSolved` (puzzle.ts:117-123): the first differing cell returns
`false`; a read on an `undefined` row throws (`none`). -/
def isSolvedAux (s solved : PuzzleState) : List (Int × Int) → Option Bool
  | [] => some true
  | p :: rest =>
    match readCell s.grid p.1 p.2 with
    | none => none
    | some a =>
      match readCell solved.grid p.1 p.2 with
      | none => none
      | some b => if a ≠ b then some false else isSolvedAux s solved rest

/-- The function `isSolved` (puzzle.ts:115-125): builds the solved layout for
`state.size` — which throws for `size <= 0` — and compares cell by cell. -/
def isSolved (s : PuzzleState) : Option Bool :=
  match createSolvedPuzzle s.size with
  | none => none
  | some solved => isSolvedAux s solved (coordList s.size.toNat)

/-- The function `getImagePosition` (puzzle.ts:134-147): flat per-tile offsets, a function
of `row` and `col` only (the implementation has no `size` parameter), formatted as CSS
percentage strings. -/
def getImagePosition (row col : Int) : String × String :=
  let colPercent := -col * 100
  let rowPercent := -row * 100
  (s!"{colPercent}%", s!"{rowPercent}%")

/-- Modelled from the spec: the `imageOffset` formula of section 4.5,
`xOffsetPercent = col * 100 / (size - 1)` and `yOffsetPercent = row * 100 / (size - 1)`,
which claim C5 asserts `getImagePosition` computes. Stated for comparison with the
implementation. -/
def imageOffsetSpec (row col size : Int) : Int × Int :=
  (col * 100 / (size - 1), row * 100 / (size - 1))

/-- The multiset of cell values of a solved `n × n` board: `some 0 .. some (n*n - 1)`. -/
def solvedCells (n : Nat) : List Cell :=
  (List.range (n * n)).map (fun k => some (k : Int))

/-- Invariants I1-I4 of the specification, section 3: the grid is an `n × n` matrix
holding each of `0 .. n*n - 1` exactly once (I1, I2), the cached blank coordinates are
in range and point at the cell holding `0` (I3), and `size` matches the grid
dimensions (I4). -/
def Invariant (s : PuzzleState) : Prop :=
  0 < s.size ∧
  s.grid.length = s.size.toNat ∧
  (∀ row ∈ s.grid, row.length = s.size.toNat) ∧
  List.Perm s.grid.flatten (solvedCells s.size.toNat) ∧
  0 ≤ s.emptyRow ∧ s.emptyRow < s.size ∧ 0 ≤ s.emptyCol ∧ s.emptyCol < s.size ∧
  readCell s.grid s.emptyRow s.emptyCol = some (some 0)

instance (s : PuzzleState) : Decidable (Invariant s) := by
  unfold Invariant
  exact inferInstance

/-- `ReachableWithin s t n` holds when `t` is obtained from `s` by at most `n` legal
single-tile moves, each a successful `movePiece` at an in-grid cell. -/
inductive ReachableWithin : PuzzleState → PuzzleState → Nat → Prop
  | refl (s : PuzzleState) (n : Nat) : ReachableWithin s s n
  | step (s mid t : PuzzleState) (n : Nat) (row col : Int) :
      0 ≤ row → row < s.size → 0 ≤ col → col < s.size →
      movePiece s row col = .ok mid →
      ReachableWithin mid t n → ReachableWithin s t (n + 1)

/-! ### Basic lemmas about the JS array model -/

theorem rect_row_length (g : Grid) (n : Nat) (h : Rect g n) (i : Nat) (hi : i < g.length) :
    (g.get ⟨i, hi⟩).length = n :=
  h.2 _ (g.get_mem _ _)

theorem jsGetRow_some (g : Grid) (r : Int) (h0 : 0 ≤ r) (h1 : r.toNat < g.length) :
    jsGetRow g r = some (g.get ⟨r.toNat, h1⟩) := by
  unfold jsGetRow
  rw [dif_pos ⟨h0, h1⟩]

theorem jsGetRow_none (g : Grid) (r : Int) (h : ¬(0 ≤ r ∧ r.toNat < g.length)) :
    jsGetRow g r = none := by
  unfold jsGetRow
  rw [dif_neg h]

theorem jsGetCell_inRange (row : List Cell) (c : Int) (h0 : 0 ≤ c) (h1 : c.toNat < row.length) :
    jsGetCell row c = row.get ⟨c.toNat, h1⟩ := by
  unfold jsGetCell
  rw [dif_pos ⟨h0, h1⟩]

theorem jsSetEntry_inRange (row : List Cell) (c : Int) (v : Cell)
    (h0 : 0 ≤ c) (h1 : c.toNat < row.length) :
    jsSetEntry row c v = row.set c.toNat v := by
  unfold jsSetEntry
  rw [if_neg (by omega), if_pos h1]

theorem jsSetCell_inRange (g : Grid) (r c : Int) (v : Cell)
    (h0 : 0 ≤ r) (h1 : r.toNat < g.length) :
    jsSetCell g r c v = g.set r.toNat (jsSetEntry (g.get ⟨r.toNat, h1⟩) c v) := by
  unfold jsSetCell
  rw [dif_pos ⟨h0, h1⟩]

theorem length_jsSetCell (g : Grid) (r c : Int) (v : Cell) :
    (jsSetCell g r c v).length = g.length := by
  unfold jsSetCell
  split <;> simp

theorem rect_jsSetCell (g : Grid) (n : Nat) (r c : Int) (v : Cell) (hrect : Rect g n)
    (hc0 : 0 ≤ c) (hc1 : c.toNat < n) : Rect (jsSetCell g r c v) n := by
  unfold jsSetCell
  split
  case isTrue h =>
    refine ⟨by simp [hrect.1], ?_⟩
    intro row hrow
    rcases List.mem_or_eq_of_mem_set hrow with hmem | heq
    · exact hrect.2 _ hmem
    · subst heq
      rw [jsSetEntry_inRange _ c v hc0 (by rw [rect_row_length g n hrect _ h.2]; exact hc1)]
      rw [List.length_set]
      exact rect_row_length g n hrect _ h.2
  case isFalse h => exact hrect

theorem readCell_inRange (g : Grid) (r c : Int) (h0 : 0 ≤ r) (h1 : r.toNat < g.length) :
    readCell g r c = some (jsGetCell (g.get ⟨r.toNat, h1⟩) c) := by
  unfold readCell
  rw [jsGetRow_some g r h0 h1]

theorem readCell_outOfRange (g : Grid) (r c : Int) (h : ¬(0 ≤ r ∧ r.toNat < g.length)) :
    readCell g r c = none := by
  unfold readCell
  rw [jsGetRow_none g r h]

theorem jsGetCell_set_self (row : List Cell) (c : Int) (v : Cell)
    (h0 : 0 ≤ c) (h1 : c.toNat < row.length) :
    jsGetCell (jsSetEntry row c v) c = v := by
  rw [jsSetEntry_inRange row c v h0 h1]
  rw [jsGetCell_inRange _ c h0 (by simpa using h1)]
  simp

theorem jsGetCell_set_ne (row : List Cell) (c c' : Int) (v : Cell)
    (h0 : 0 ≤ c) (h1 : c.toNat < row.length) (hne : c' ≠ c) :
    jsGetCell (jsSetEntry row c v) c' = jsGetCell row c' := by
  rw [jsSetEntry_inRange row c v h0 h1]
  unfold jsGetCell
  by_cases hc' : 0 ≤ c' ∧ c'.toNat < row.length
  · rw [dif_pos (by simpa using hc'), dif_pos hc']
    have hnt : c.toNat ≠ c'.toNat := by omega
    simp [List.get_eq_getElem, List.getElem_set_ne hnt]
  · rw [dif_neg (by simpa using hc'), dif_neg hc']

theorem readCell_set_self (g : Grid) (n : Nat) (r c : Int) (v : Cell) (hrect : Rect g n)
    (hr0 : 0 ≤ r) (hr1 : r.toNat < n) (hc0 : 0 ≤ c) (hc1 : c.toNat < n) :
    readCell (jsSetCell g r c v) r c = some v := by
  have hrg : r.toNat < g.length := by rw [hrect.1]; exact hr1
  rw [jsSetCell_inRange g r c v hr0 hrg]
  rw [readCell_inRange _ r c hr0 (by simpa using hrg)]
  have hget : (g.set r.toNat (jsSetEntry (g.get ⟨r.toNat, hrg⟩) c v)).get
      ⟨r.toNat, by simpa using hrg⟩ = jsSetEntry (g.get ⟨r.toNat, hrg⟩) c v := by
    simp [List.get_eq_getElem]
  rw [hget]
  rw [jsGetCell_set_self _ c v hc0 (by rw [rect_row_length g n hrect _ hrg]; exact hc1)]

theorem readCell_set_ne (g : Grid) (n : Nat) (r c r' c' : Int) (v : Cell) (hrect : Rect g n)
    (hr0 : 0 ≤ r) (hr1 : r.toNat < n) (hc0 : 0 ≤ c) (hc1 : c.toNat < n)
    (hne : r' ≠ r ∨ c' ≠ c) :
    readCell (jsSetCell g r c v) r' c' = readCell g r' c' := by
  have hrg : r.toNat < g.length := by rw [hrect.1]; exact hr1
  rw [jsSetCell_inRange g r c v hr0 hrg]
  by_cases hrange : 0 ≤ r' ∧ r'.toNat < g.length
  · by_cases hrr : r' = r
    · subst hrr
      rcases hne with hne | hne
      · exact absurd rfl hne
      · rw [readCell_inRange _ r' c' hrange.1 (by simpa using hrange.2)]
        rw [readCell_inRange g r' c' hrange.1 hrange.2]
        have hget : (g.set r'.toNat (jsSetEntry (g.get ⟨r'.toNat, hrg⟩) c v)).get
            ⟨r'.toNat, by simpa using hrange.2⟩ = jsSetEntry (g.get ⟨r'.toNat, hrg⟩) c v := by
          simp [List.get_eq_getElem]
        rw [hget]
        rw [jsGetCell_set_ne _ c c' v hc0
          (by rw [rect_row_length g n hrect _ hrg]; exact hc1) hne]
    · rw [readCell_inRange _ r' c' hrange.1 (by simpa using hrange.2)]
      rw [readCell_inRange g r' c' hrange.1 hrange.2]
      have hnt : r.toNat ≠ r'.toNat := by omega
      have hget : (g.set r.toNat (jsSetEntry (g.get ⟨r.toNat, hrg⟩) c v)).get
          ⟨r'.toNat, by simpa using hrange.2⟩ = g.get ⟨r'.toNat, hrange.2⟩ := by
        simp [List.get_eq_getElem, List.getElem_set_ne hnt]
      rw [hget]
  · rw [readCell_outOfRange _ r' c' (by simpa using hrange)]
    rw [readCell_outOfRange g r' c' hrange]

/-! ### Counting lemmas: a swap of two cells preserves the multiset of values -/

theorem count_set_add {α : Type} [DecidableEq α] (l : List α) (i : Nat) (h : i < l.length)
    (x y v : α) (hy : l.get ⟨i, h⟩ = y) :
    (l.set i x).count v + (if y = v then 1 else 0)
      = l.count v + (if x = v then 1 else 0) := by
  induction l generalizing i with
  | nil => simp at h
  | cons a t ih =>
    cases i with
    | zero =>
      simp only [List.get] at hy
      subst hy
      simp only [List.set_cons_zero, List.count_cons, beq_iff_eq]
      split_ifs <;> omega
    | succ i =>
      have hi : i < t.length := by simpa using h
      simp only [List.get] at hy
      have := ih i hi hy
      simp only [List.set_cons_succ, List.count_cons, beq_iff_eq]
      split_ifs at this ⊢ <;> omega

theorem count_flatten_set {α : Type} [DecidableEq α] (g : List (List α)) (r : Nat)
    (h : r < g.length) (rowr row' : List α) (v : α) (hr : g.get ⟨r, h⟩ = rowr) :
    (g.set r row').flatten.count v + rowr.count v
      = g.flatten.count v + row'.count v := by
  induction g generalizing r with
  | nil => simp at h
  | cons a t ih =>
    cases r with
    | zero =>
      simp only [List.get] at hr
      subst hr
      simp only [List.set_cons_zero, List.flatten_cons, List.count_append]
      omega
    | succ r =>
      have hrt : r < t.length := by simpa using h
      simp only [List.get] at hr
      have := ih r hrt hr
      simp only [List.set_cons_succ, List.flatten_cons, List.count_append]
      omega

theorem flatten_perm_swap (g : Grid) (n : Nat) (r1 c1 r2 c2 : Int) (x1 x2 : Cell)
    (hrect : Rect g n)
    (hr10 : 0 ≤ r1) (hr11 : r1.toNat < n) (hc10 : 0 ≤ c1) (hc11 : c1.toNat < n)
    (hr20 : 0 ≤ r2) (hr21 : r2.toNat < n) (hc20 : 0 ≤ c2) (hc21 : c2.toNat < n)
    (hne : r1 ≠ r2 ∨ c1 ≠ c2)
    (hx1 : readCell g r1 c1 = some x1) (hx2 : readCell g r2 c2 = some x2) :
    List.Perm (jsSetCell (jsSetCell g r1 c1 x2) r2 c2 x1).flatten g.flatten := by
  have hga1 : r1.toNat < g.length := by rw [hrect.1]; exact hr11
  have hga2 : r2.toNat < g.length := by rw [hrect.1]; exact hr21
  have hb1 : c1.toNat < (g.get ⟨r1.toNat, hga1⟩).length := by
    rw [rect_row_length g n hrect _ hga1]; exact hc11
  have hb2 : c2.toNat < (g.get ⟨r2.toNat, hga2⟩).length := by
    rw [rect_row_length g n hrect _ hga2]; exact hc21
  rw [readCell_inRange g r1 c1 hr10 hga1] at hx1
  rw [jsGetCell_inRange _ c1 hc10 hb1] at hx1
  have hx1' : (g.get ⟨r1.toNat, hga1⟩).get ⟨c1.toNat, hb1⟩ = x1 := Option.some.inj hx1
  rw [readCell_inRange g r2 c2 hr20 hga2] at hx2
  rw [jsGetCell_inRange _ c2 hc20 hb2] at hx2
  have hx2' : (g.get ⟨r2.toNat, hga2⟩).get ⟨c2.toNat, hb2⟩ = x2 := Option.some.inj hx2
  have hg1 : jsSetCell g r1 c1 x2 = g.set r1.toNat ((g.get ⟨r1.toNat, hga1⟩).set c1.toNat x2) := by
    rw [jsSetCell_inRange g r1 c1 x2 hr10 hga1, jsSetEntry_inRange _ c1 x2 hc10 hb1]
  by_cases hr : r1 = r2
  · -- same row: both writes hit the same row array
    subst hr
    have hcc : c1 ≠ c2 := by
      rcases hne with h | h
      · exact absurd rfl h
      · exact h
    have hbb : c1.toNat ≠ c2.toNat := by omega
    rw [hg1]
    have hga1' : r1.toNat < (g.set r1.toNat ((g.get ⟨r1.toNat, hga1⟩).set c1.toNat x2)).length := by
      simpa using hga1
    have hgetrow : (g.set r1.toNat ((g.get ⟨r1.toNat, hga1⟩).set c1.toNat x2)).get
        ⟨r1.toNat, hga1'⟩ = (g.get ⟨r1.toNat, hga1⟩).set c1.toNat x2 := by
      simp [List.get_eq_getElem]
    have hb2' : c2.toNat < ((g.get ⟨r1.toNat, hga1⟩).set c1.toNat x2).length := by
      simpa using hb2
    rw [jsSetCell_inRange _ r1 c2 x1 hr20 hga1', hgetrow,
      jsSetEntry_inRange _ c2 x1 hc20 hb2', List.set_set]
    rw [List.perm_iff_count]
    intro v
    have hA := count_flatten_set g r1.toNat hga1 (g.get ⟨r1.toNat, hga1⟩)
      (((g.get ⟨r1.toNat, hga1⟩).set c1.toNat x2).set c2.toNat x1) v rfl
    have hB := count_set_add (g.get ⟨r1.toNat, hga1⟩) c1.toNat hb1 x2 x1 v hx1'
    have hy2 : ((g.get ⟨r1.toNat, hga1⟩).set c1.toNat x2).get ⟨c2.toNat, hb2'⟩ = x2 := by
      rw [List.get_eq_getElem, List.getElem_set_ne hbb]
      rw [List.get_eq_getElem] at hx2'
      exact hx2'
    have hC := count_set_add ((g.get ⟨r1.toNat, hga1⟩).set c1.toNat x2) c2.toNat hb2' x1 x2 v hy2
    split_ifs at hB hC <;> omega
  · -- different rows
    have haa : r1.toNat ≠ r2.toNat := by omega
    rw [hg1]
    have hga2' : r2.toNat < (g.set r1.toNat ((g.get ⟨r1.toNat, hga1⟩).set c1.toNat x2)).length := by
      simpa using hga2
    have hgetrow : (g.set r1.toNat ((g.get ⟨r1.toNat, hga1⟩).set c1.toNat x2)).get
        ⟨r2.toNat, hga2'⟩ = g.get ⟨r2.toNat, hga2⟩ := by
      simp [List.get_eq_getElem, List.getElem_set_ne haa]
    have hb2' : c2.toNat < (g.get ⟨r2.toNat, hga2⟩).length := hb2
    rw [jsSetCell_inRange _ r2 c2 x1 hr20 hga2', hgetrow,
      jsSetEntry_inRange _ c2 x1 hc20 hb2']
    rw [List.perm_iff_count]
    intro v
    have hA1 := count_flatten_set (g.set r1.toNat ((g.get ⟨r1.toNat, hga1⟩).set c1.toNat x2))
      r2.toNat hga2' (g.get ⟨r2.toNat, hga2⟩) ((g.get ⟨r2.toNat, hga2⟩).set c2.toNat x1) v hgetrow
    have hA2 := count_flatten_set g r1.toNat hga1 (g.get ⟨r1.toNat, hga1⟩)
      ((g.get ⟨r1.toNat, hga1⟩).set c1.toNat x2) v rfl
    have hB := count_set_add (g.get ⟨r1.toNat, hga1⟩) c1.toNat hb1 x2 x1 v hx1'
    have hC := count_set_add (g.get ⟨r2.toNat, hga2⟩) c2.toNat hb2 x1 x2 v hx2'
    split_ifs at hB hC <;> omega

/-! ### Characterization of canMove and movePiece -/

theorem canMove_iff (s : PuzzleState) (row col : Int) :
    canMove s row col = true ↔
      ((row - s.emptyRow).natAbs = 1 ∧ col = s.emptyCol) ∨
      ((col - s.emptyCol).natAbs = 1 ∧ row = s.emptyRow) := by
  unfold canMove
  simp [Bool.or_eq_true, Bool.and_eq_true, beq_iff_eq]

theorem canMove_false_null (s : PuzzleState) (row col : Int)
    (h : canMove s row col = false) :
    movePiece s row col = .nullResult := by
  unfold movePiece
  rw [h]
  rfl

theorem readCell_eq_some_cellAt (g : Grid) (r c : Int)
    (h0 : 0 ≤ r) (h1 : r.toNat < g.length) :
    readCell g r c = some (cellAt g r c) := by
  unfold cellAt
  rw [readCell_inRange g r c h0 h1]
  rfl

theorem invariant_rect (s : PuzzleState) (h : Invariant s) : Rect s.grid s.size.toNat :=
  ⟨h.2.1, h.2.2.1⟩

theorem movePiece_eq_ok (s : PuzzleState) (row col : Int) (hinv : Invariant s)
    (hr0 : 0 ≤ row) (hr1 : row < s.size) (hcm : canMove s row col = true) :
    movePiece s row col = .ok (movedState s row col) := by
  obtain ⟨hpos, hlen, hrows, hperm, he1, he2, he3, he4, hblank⟩ := hinv
  have hrg : row.toNat < s.grid.length := by rw [hlen]; omega
  have herg : s.emptyRow.toNat < s.grid.length := by rw [hlen]; omega
  unfold movePiece
  rw [hcm]
  rw [if_neg (by simp)]
  rw [jsGetRow_some s.grid row hr0 hrg]
  rw [jsGetRow_some s.grid s.emptyRow he1 herg]
  unfold movedState cellAt
  rw [readCell_inRange s.grid row col hr0 hrg]
  rfl

theorem invariant_movedState (s : PuzzleState) (row col : Int) (hinv : Invariant s)
    (hr0 : 0 ≤ row) (hr1 : row < s.size) (hc0 : 0 ≤ col) (hc1 : col < s.size)
    (hcm : canMove s row col = true) :
    Invariant (movedState s row col) := by
  obtain ⟨hpos, hlen, hrows, hperm, he1, he2, he3, he4, hblank⟩ := hinv
  have hrect : Rect s.grid s.size.toNat := ⟨hlen, hrows⟩
  have herg : s.emptyRow.toNat < s.grid.length := by rw [hlen]; omega
  have hrg : row.toNat < s.grid.length := by rw [hlen]; omega
  have hne : s.emptyRow ≠ row ∨ s.emptyCol ≠ col := by
    rcases (canMove_iff s row col).1 hcm with ⟨h1, h2⟩ | ⟨h1, h2⟩
    · left; omega
    · right; omega
  have hx2 : readCell s.grid row col = some (cellAt s.grid row col) :=
    readCell_eq_some_cellAt s.grid row col hr0 hrg
  have hrect1 : Rect (jsSetCell s.grid s.emptyRow s.emptyCol (cellAt s.grid row col))
      s.size.toNat :=
    rect_jsSetCell s.grid s.size.toNat s.emptyRow s.emptyCol _ hrect he3 (by omega)
  have hrect2 : Rect (movedState s row col).grid s.size.toNat := by
    unfold movedState
    exact rect_jsSetCell _ s.size.toNat row col _ hrect1 hc0 (by omega)
  have hpermswap := flatten_perm_swap s.grid s.size.toNat s.emptyRow s.emptyCol row col
    (some 0) (cellAt s.grid row col) hrect he1 (by omega) he3 (by omega)
    hr0 (by omega) hc0 (by omega) hne hblank hx2
  refine ⟨hpos, hrect2.1, hrect2.2, ?_, hr0, hr1, hc0, hc1, ?_⟩
  · exact hpermswap.trans hperm
  · exact readCell_set_self _ s.size.toNat row col (some 0) hrect1 hr0 (by omega) hc0 (by omega)

theorem swapCells_eq (s : PuzzleState) (nr nc : Int) (hinv : Invariant s)
    (h0 : 0 ≤ nr) (h1 : nr < s.size) :
    swapCells s.grid s.emptyRow s.emptyCol nr nc = some (movedState s nr nc).grid := by
  obtain ⟨hpos, hlen, hrows, hperm, he1, he2, he3, he4, hblank⟩ := hinv
  have herg : s.emptyRow.toNat < s.grid.length := by rw [hlen]; omega
  have hnrg : nr.toNat < s.grid.length := by rw [hlen]; omega
  unfold swapCells
  rw [jsGetRow_some s.grid s.emptyRow he1 herg]
  rw [jsGetRow_some s.grid nr h0 hnrg]
  dsimp only
  have hb : jsGetCell (s.grid.get ⟨s.emptyRow.toNat, herg⟩) s.emptyCol = some 0 := by
    rw [readCell_inRange s.grid s.emptyRow s.emptyCol he1 herg] at hblank
    exact Option.some.inj hblank
  have hcell : cellAt s.grid nr nc = jsGetCell (s.grid.get ⟨nr.toNat, hnrg⟩) nc := by
    unfold cellAt
    rw [readCell_inRange s.grid nr nc h0 hnrg]
    rfl
  unfold movedState
  rw [hb, hcell]

theorem validMoves_bounds (s : PuzzleState) (d : Int × Int) (hd : d ∈ validMoves s) :
    d ∈ directions ∧ 0 ≤ s.emptyRow + d.1 ∧ s.emptyRow + d.1 < s.size ∧
      0 ≤ s.emptyCol + d.2 ∧ s.emptyCol + d.2 < s.size := by
  unfold validMoves at hd
  rw [List.mem_filter] at hd
  refine ⟨hd.1, ?_⟩
  have h := hd.2
  simp only [Bool.and_eq_true, decide_eq_true_eq] at h
  exact ⟨h.1.1.1, h.1.1.2, h.1.2, h.2⟩

theorem canMove_direction (s : PuzzleState) (d : Int × Int) (hd : d ∈ directions) :
    canMove s (s.emptyRow + d.1) (s.emptyCol + d.2) = true := by
  rw [canMove_iff]
  fin_cases hd <;> omega

theorem shuffleLoop_spec (rng : Nat → Nat) (k : Nat) :
    ∀ (i : Nat) (s : PuzzleState), Invariant s →
      ∃ t, shuffleLoop rng k i s = some t ∧ Invariant t ∧ ReachableWithin s t k := by
  induction k with
  | zero =>
    intro i s hinv
    exact ⟨s, rfl, hinv, .refl s 0⟩
  | succ k ih =>
    intro i s hinv
    unfold shuffleLoop
    by_cases h : (validMoves s).length = 0
    · rw [dif_pos h]
      exact ⟨s, rfl, hinv, .refl s (k + 1)⟩
    · rw [dif_neg h]
      dsimp only
      have hdmem : (validMoves s).get ⟨rng i % (validMoves s).length,
          Nat.mod_lt _ (Nat.pos_of_ne_zero h)⟩ ∈ validMoves s := List.get_mem _ _ _
      obtain ⟨hdir, hb1, hb2, hb3, hb4⟩ := validMoves_bounds s _ hdmem
      have hcm := canMove_direction s _ hdir
      rw [swapCells_eq s _ _ ⟨hinv.1, hinv.2.1, hinv.2.2.1, hinv.2.2.2.1, hinv.2.2.2.2.1,
        hinv.2.2.2.2.2.1, hinv.2.2.2.2.2.2.1, hinv.2.2.2.2.2.2.2.1,
        hinv.2.2.2.2.2.2.2.2⟩ hb1 hb2]
      dsimp only
      obtain ⟨t, ht1, ht2, ht3⟩ := ih (i + 1) _
        (invariant_movedState s _ _ hinv hb1 hb2 hb3 hb4 hcm)
      refine ⟨t, ?_, ht2, ?_⟩
      · exact ht1
      · exact .step s _ t k _ _ hb1 hb2 hb3 hb4
          (movePiece_eq_ok s _ _ hinv hb1 hb2 hcm) ht3

/-! ### The canonical solved layout -/

theorem rect_canonical (n : Nat) :
    Rect ((List.range n).map
      (fun i => (List.range n).map (fun j => some ((i * n + j + 1 : Nat) : Int)))) n := by
  constructor
  · simp
  · intro row hrow
    simp only [List.mem_map] at hrow
    obtain ⟨i, hi, rfl⟩ := hrow
    simp

theorem readCell_canonical (n : Nat) (r c : Int) (hr0 : 0 ≤ r) (hr1 : r.toNat < n)
    (hc0 : 0 ≤ c) (hc1 : c.toNat < n) :
    readCell ((List.range n).map
        (fun i => (List.range n).map (fun j => some ((i * n + j + 1 : Nat) : Int)))) r c
      = some (some ((r.toNat * n + c.toNat + 1 : Nat) : Int)) := by
  rw [readCell_inRange _ r c hr0 (by simpa using hr1)]
  congr 1
  have hget : (((List.range n).map
      (fun i => (List.range n).map (fun j => some ((i * n + j + 1 : Nat) : Int)))).get
        ⟨r.toNat, by simpa using hr1⟩)
      = (List.range n).map (fun j => some ((r.toNat * n + j + 1 : Nat) : Int)) := by
    simp [List.get_eq_getElem]
  rw [hget]
  rw [jsGetCell_inRange _ c hc0 (by simpa using hc1)]
  simp [List.get_eq_getElem]

theorem createSolved_some (size : Int) (hsz : 1 ≤ size) :
    createSolvedPuzzle size = some
      { grid := jsSetCell ((List.range size.toNat).map
          (fun i => (List.range size.toNat).map
            (fun j => some ((i * size.toNat + j + 1 : Nat) : Int))))
          (size - 1) (size - 1) (some 0)
        emptyRow := size - 1
        emptyCol := size - 1
        size := size } := by
  unfold createSolvedPuzzle
  dsimp only
  rw [jsGetRow_some _ (size - 1) (by omega) (by simp; omega)]

theorem createSolved_none (size : Int) (hsz : size ≤ 0) :
    createSolvedPuzzle size = none := by
  unfold createSolvedPuzzle
  dsimp only
  rw [jsGetRow_none _ (size - 1) (by simp; omega)]

theorem createSolved_readCell (size : Int) (hsz : 1 ≤ size) :
    ∃ s, createSolvedPuzzle size = some s ∧ s.emptyRow = size - 1 ∧ s.emptyCol = size - 1 ∧
      s.size = size ∧ Rect s.grid size.toNat ∧
      ∀ r c : Int, 0 ≤ r → r < size → 0 ≤ c → c < size →
        readCell s.grid r c = if r = size - 1 ∧ c = size - 1 then some (some 0)
          else some (some (r * size + c + 1)) := by
  refine ⟨_, createSolved_some size hsz, rfl, rfl, rfl, ?_, ?_⟩
  · exact rect_jsSetCell _ _ _ _ _ (rect_canonical size.toNat) (by omega) (by omega)
  · intro r c hr0 hr1 hc0 hc1
    by_cases hlast : r = size - 1 ∧ c = size - 1
    · rw [if_pos hlast]
      obtain ⟨rfl, rfl⟩ := hlast
      exact readCell_set_self _ size.toNat _ _ _ (rect_canonical size.toNat)
        (by omega) (by omega) (by omega) (by omega)
    · rw [if_neg hlast]
      have hne : r ≠ size - 1 ∨ c ≠ size - 1 := by tauto
      rw [readCell_set_ne _ size.toNat _ _ _ _ _ (rect_canonical size.toNat)
        (by omega) (by omega) (by omega) (by omega) hne]
      rw [readCell_canonical size.toNat r c hr0 (by omega) hc0 (by omega)]
      congr 2
      push_cast
      rw [Int.toNat_of_nonneg hr0, Int.toNat_of_nonneg hc0, Int.toNat_of_nonneg (by omega)]

/-! ### The completion check -/

theorem mem_coordList (n : Nat) (r c : Int) :
    (r, c) ∈ coordList n ↔ 0 ≤ r ∧ r < (n : Int) ∧ 0 ≤ c ∧ c < (n : Int) := by
  unfold coordList
  rw [List.mem_flatMap]
  constructor
  · intro hmem
    obtain ⟨i, hi, hmem2⟩ := hmem
    rw [List.mem_range] at hi
    simp only [List.mem_map, List.mem_range, Prod.mk.injEq, Int.ofNat_eq_coe] at hmem2
    obtain ⟨j, hj, hr, hc⟩ := hmem2
    omega
  · rintro ⟨h1, h2, h3, h4⟩
    refine ⟨r.toNat, by rw [List.mem_range]; omega, ?_⟩
    simp only [List.mem_map, List.mem_range, Prod.mk.injEq, Int.ofNat_eq_coe]
    exact ⟨c.toNat, by omega, by omega, by omega⟩

theorem isSolvedAux_true_iff (s solved : PuzzleState) (ps : List (Int × Int))
    (hsome : ∀ p ∈ ps,
      (readCell s.grid p.1 p.2).isSome ∧ (readCell solved.grid p.1 p.2).isSome) :
    isSolvedAux s solved ps = some true ↔
      ∀ p ∈ ps, readCell s.grid p.1 p.2 = readCell solved.grid p.1 p.2 := by
  induction ps with
  | nil => simp [isSolvedAux]
  | cons p rest ih =>
    obtain ⟨h1, h2⟩ := hsome p (List.mem_cons_self p rest)
    obtain ⟨a, ha⟩ := Option.isSome_iff_exists.mp h1
    obtain ⟨b, hb⟩ := Option.isSome_iff_exists.mp h2
    unfold isSolvedAux
    rw [ha, hb]
    dsimp only
    by_cases hab : a = b
    · subst hab
      rw [if_neg (by simp)]
      rw [ih (fun q hq => hsome q (List.mem_cons_of_mem p hq))]
      constructor
      · intro hall q hq
        rcases List.mem_cons.mp hq with rfl | hq'
        · rw [ha, hb]
        · exact hall q hq'
      · intro hall q hq
        exact hall q (List.mem_cons_of_mem p hq)
    · rw [if_pos hab]
      constructor
      · intro hfalse
        exact absurd (Option.some.inj hfalse) (by simp)
      · intro hall
        have := hall p (List.mem_cons_self p rest)
        rw [ha, hb] at this
        exact absurd (Option.some.inj this) hab

/-! ### Determinism of the shuffle relative to the random stream -/

theorem shuffleLoop_congr (rng rng' : Nat → Nat) (k : Nat) :
    ∀ (i : Nat) (s : PuzzleState), (∀ j, j < k → rng (i + j) = rng' (i + j)) →
      shuffleLoop rng k i s = shuffleLoop rng' k i s := by
  induction k with
  | zero =>
    intro i s _
    rfl
  | succ k ih =>
    intro i s h
    unfold shuffleLoop
    by_cases hv : (validMoves s).length = 0
    · rw [dif_pos hv, dif_pos hv]
    · rw [dif_neg hv, dif_neg hv]
      dsimp only
      have h0 : rng i = rng' i := by
        have := h 0 (by omega)
        simpa using this
      have hfin : (⟨rng i % (validMoves s).length,
            Nat.mod_lt _ (Nat.pos_of_ne_zero hv)⟩ : Fin (validMoves s).length)
          = ⟨rng' i % (validMoves s).length, Nat.mod_lt _ (Nat.pos_of_ne_zero hv)⟩ :=
        Fin.ext (by rw [h0])
      rw [hfin]
      cases swapCells s.grid s.emptyRow s.emptyCol
          (s.emptyRow + ((validMoves s).get ⟨rng' i % (validMoves s).length,
            Nat.mod_lt _ (Nat.pos_of_ne_zero hv)⟩).1)
          (s.emptyCol + ((validMoves s).get ⟨rng' i % (validMoves s).length,
            Nat.mod_lt _ (Nat.pos_of_ne_zero hv)⟩).2) with
      | none => rfl
      | some g =>
        apply ih (i + 1)
        intro j hj
        have := h (j + 1) (by omega)
        rw [show i + (j + 1) = i + 1 + j by omega] at this
        exact this

/-! ### Claim theorems -/

/-- C1: for every state satisfying the invariants and every in-grid cell `(row, col)`,
`movePiece` returns a state exactly when `canMove` is true, i.e. exactly when the cell is
orthogonally adjacent (Manhattan distance 1, same row or same column, diagonals never) to
the blank; the returned state has the clicked tile and the blank swapped, the cached
blank coordinates updated to `(row, col)`, and every other cell unchanged by value (the
input state itself is untouched: the result is built on a copied grid). -/
theorem claim1_movePiece_adjacency (s : PuzzleState) (row col : Int) (hinv : Invariant s)
    (hr0 : 0 ≤ row) (hr1 : row < s.size) (hc0 : 0 ≤ col) (hc1 : col < s.size) :
    ((∃ s', movePiece s row col = MoveResult.ok s') ↔ canMove s row col = true) ∧
    (canMove s row col = true ↔
      ((row - s.emptyRow).natAbs = 1 ∧ col = s.emptyCol) ∨
      ((col - s.emptyCol).natAbs = 1 ∧ row = s.emptyRow)) ∧
    ∀ s', movePiece s row col = MoveResult.ok s' →
      s'.size = s.size ∧ s'.emptyRow = row ∧ s'.emptyCol = col ∧
      readCell s'.grid row col = some (some 0) ∧
      readCell s.grid s.emptyRow s.emptyCol = some (some 0) ∧
      readCell s'.grid s.emptyRow s.emptyCol = readCell s.grid row col ∧
      ∀ r c : Int, 0 ≤ r → r < s.size → 0 ≤ c → c < s.size →
        (r ≠ row ∨ c ≠ col) → (r ≠ s.emptyRow ∨ c ≠ s.emptyCol) →
        readCell s'.grid r c = readCell s.grid r c := by
  have hok : canMove s row col = true →
      movePiece s row col = MoveResult.ok (movedState s row col) :=
    fun hcm => movePiece_eq_ok s row col hinv hr0 hr1 hcm
  refine ⟨⟨?_, fun hcm => ⟨movedState s row col, hok hcm⟩⟩, canMove_iff s row col, ?_⟩
  · rintro ⟨s', hs'⟩
    cases hcmb : canMove s row col with
    | true => rfl
    | false =>
      rw [canMove_false_null s row col hcmb] at hs'
      exact absurd hs' (by simp)
  · intro s' hs'
    have hcm : canMove s row col = true := by
      cases hcmb : canMove s row col with
      | true => rfl
      | false =>
        rw [canMove_false_null s row col hcmb] at hs'
        exact absurd hs' (by simp)
    rw [hok hcm] at hs'
    have hs'' := MoveResult.ok.inj hs'
    subst hs''
    obtain ⟨hpos, hlen, hrows, hperm, he1, he2, he3, he4, hblank⟩ := hinv
    have hrect : Rect s.grid s.size.toNat := ⟨hlen, hrows⟩
    have hrg : row.toNat < s.grid.length := by rw [hlen]; omega
    have hrect1 : Rect (jsSetCell s.grid s.emptyRow s.emptyCol (cellAt s.grid row col))
        s.size.toNat :=
      rect_jsSetCell s.grid s.size.toNat s.emptyRow s.emptyCol _ hrect he3 (by omega)
    have hne : s.emptyRow ≠ row ∨ s.emptyCol ≠ col := by
      rcases (canMove_iff s row col).1 hcm with ⟨h1, h2⟩ | ⟨h1, h2⟩
      · left; omega
      · right; omega
    refine ⟨rfl, rfl, rfl, ?_, hblank, ?_, ?_⟩
    · exact readCell_set_self _ s.size.toNat row col (some 0) hrect1 hr0 (by omega)
        hc0 (by omega)
    · show readCell (movedState s row col).grid s.emptyRow s.emptyCol
        = readCell s.grid row col
      unfold movedState
      rw [readCell_set_ne _ s.size.toNat row col s.emptyRow s.emptyCol (some 0) hrect1
        hr0 (by omega) hc0 (by omega) (by tauto)]
      rw [readCell_set_self s.grid s.size.toNat s.emptyRow s.emptyCol _ hrect he1 (by omega)
        he3 (by omega)]
      rw [readCell_eq_some_cellAt s.grid row col hr0 hrg]
    · intro r c har0 har1 hac0 hac1 hner hnee
      show readCell (movedState s row col).grid r c = readCell s.grid r c
      unfold movedState
      rw [readCell_set_ne _ s.size.toNat row col r c (some 0) hrect1
        hr0 (by omega) hc0 (by omega) (by tauto)]
      rw [readCell_set_ne s.grid s.size.toNat s.emptyRow s.emptyCol r c _ hrect he1 (by omega)
        he3 (by omega) (by tauto)]

/-- Witness for C1 at scenario B: the solved 3-by-3 state and the cell `(2, 1)`. -/
theorem claim1_witness :
    (∃ s', movePiece (PuzzleState.mk [[some 1, some 2, some 3], [some 4, some 5, some 6],
        [some 7, some 8, some 0]] 2 2 3) 2 1 = MoveResult.ok s') ↔
      canMove (PuzzleState.mk [[some 1, some 2, some 3], [some 4, some 5, some 6],
        [some 7, some 8, some 0]] 2 2 3) 2 1 = true :=
  (claim1_movePiece_adjacency _ 2 1 (by decide) (by decide) (by decide) (by decide)
    (by decide)).1

/-- C2: for every state satisfying invariants I1-I4, every step count, and every possible
outcome of the randomness stream, `shufflePuzzle` returns (without throwing) a state that
satisfies I1-I4 and is reachable from the input state by at most `steps` legal adjacent
single-tile moves — hence solvable when the walk starts from the solved state. -/
theorem claim2_shuffle_invariant_reachable (s : PuzzleState) (steps : Int) (rng : Nat → Nat)
    (hinv : Invariant s) :
    ∃ t, shufflePuzzle s steps rng = some t ∧ Invariant t ∧
      ReachableWithin s t steps.toNat := by
  unfold shufflePuzzle
  exact shuffleLoop_spec rng steps.toNat 0 s hinv

/-- Witness for C2: two random steps from the solved 3-by-3 state. -/
theorem claim2_witness :
    ∃ t, shufflePuzzle (PuzzleState.mk [[some 1, some 2, some 3], [some 4, some 5, some 6],
        [some 7, some 8, some 0]] 2 2 3) 2 (fun i => i) = some t ∧ Invariant t ∧
      ReachableWithin (PuzzleState.mk [[some 1, some 2, some 3], [some 4, some 5, some 6],
        [some 7, some 8, some 0]] 2 2 3) t (2 : Int).toNat :=
  claim2_shuffle_invariant_reachable _ 2 (fun i => i) (by decide)

/-- C3 (amended): `movePiece` returns `null` exactly for the cells failing `canMove`'s
adjacency test — with no exception and no effect on the input state; out-of-grid
coordinates orthogonally adjacent to the blank pass `canMove`, so there `movePiece` does
not return `null` (it throws a `TypeError` when the row coordinate is outside the grid). -/
theorem claim3_null_iff_not_adjacent (s : PuzzleState) (row col : Int) :
    movePiece s row col = MoveResult.nullResult ↔ canMove s row col = false := by
  unfold movePiece
  cases h : canMove s row col with
  | false => simp
  | true =>
    simp only [Bool.not_true, Bool.false_eq_true, if_false]
    cases jsGetRow s.grid row with
    | none => simp
    | some rowArr =>
      cases jsGetRow s.grid s.emptyRow with
      | none => simp
      | some x => simp

/-- Counterexample to C3 as stated: on the solved 2-by-2 state the out-of-grid cell
`(2, 1)` is illegal (there is no tile there), yet `movePiece` does not return `null` —
it lets a `TypeError` escape. -/
theorem claim3_counterexample :
    ∃ s, createSolvedPuzzle 2 = some s ∧ canMove s 2 1 = true ∧
      movePiece s 2 1 = MoveResult.thrown := by
  refine ⟨PuzzleState.mk [[some 1, some 2], [some 3, some 0]] 1 1 2, ?_, ?_, ?_⟩
  · decide
  · decide
  · decide

/-- C4 (amended): `createSolvedPuzzle` performs no size validation: every `size >= 1`
returns an ordinary state (with `size = 1` the degenerate one-cell board), and
`size <= 0` throws a `TypeError` from indexing an `undefined` row, not a distinguishable
`InvalidSize` condition. -/
theorem claim4_createSolved_sizes (size : Int) :
    (1 ≤ size → ∃ s, createSolvedPuzzle size = some s) ∧
    (size ≤ 0 → createSolvedPuzzle size = none) := by
  constructor
  · intro h
    exact ⟨_, createSolved_some size h⟩
  · intro h
    exact createSolved_none size h

/-- Witness for C4 at sizes 1 and 0. -/
theorem claim4_witness :
    (∃ s, createSolvedPuzzle 1 = some s) ∧ createSolvedPuzzle 0 = none :=
  ⟨(claim4_createSolved_sizes 1).1 (by decide), (claim4_createSolved_sizes 0).2 (by decide)⟩

/-- Counterexample to C4 as stated: `size = 1` is below the claimed validity threshold,
yet `createSolvedPuzzle` returns an ordinary already-solved state instead of failing. -/
theorem claim4_counterexample :
    createSolvedPuzzle 1 = some (PuzzleState.mk [[some 0]] 0 0 1) := by decide

/-- C5 (amended): `getImagePosition` takes only `(row, col)` — it has no `size`
parameter — and returns the flat per-tile offsets `(-col*100)%` and `(-row*100)%`
(the fixed per-tile background convention of the design notes), not the
`col*100/(size-1)` percentage-of-travel formula. -/
theorem claim5_getImagePosition_flat (row col : Int) :
    getImagePosition row col
      = (toString (-(col * 100)) ++ "%", toString (-(row * 100)) ++ "%") := by
  unfold getImagePosition
  rw [Int.neg_mul, Int.neg_mul]
  rfl

/-- Counterexample to C5 as stated: at goal cell `(0, 1)` with `size = 3` the claimed
formula gives an x-offset of `50`, but the implementation returns `"-100%"`. -/
theorem claim5_counterexample :
    getImagePosition 0 1 = ("-100%", "0%") ∧ imageOffsetSpec 0 1 3 = (50, 0) ∧
    ("-100%" : String) ≠ "50%" := by
  refine ⟨?_, ?_, ?_⟩
  · decide
  · decide
  · decide

/-- C6 (relative determinism): `shufflePuzzle` consumes the global `Math.random` — the
implementation has no injectable rng parameter — so determinism holds only relative to
the hidden stream: fixing the draws of the first `moves` iterations fixes the result. -/
theorem claim6_shuffle_deterministic (s : PuzzleState) (moves : Int) (rng rng' : Nat → Nat)
    (h : ∀ j, j < moves.toNat → rng j = rng' j) :
    shufflePuzzle s moves rng = shufflePuzzle s moves rng' := by
  unfold shufflePuzzle
  apply shuffleLoop_congr
  intro j hj
  simpa using h j hj

/-- Witness for C6: two streams agreeing on their first two draws. -/
theorem claim6_witness :
    shufflePuzzle (PuzzleState.mk [[some 1, some 2, some 3], [some 4, some 5, some 6],
        [some 7, some 8, some 0]] 2 2 3) 2 (fun j => j)
      = shufflePuzzle (PuzzleState.mk [[some 1, some 2, some 3], [some 4, some 5, some 6],
        [some 7, some 8, some 0]] 2 2 3) 2 (fun j => min j 5) :=
  claim6_shuffle_deterministic _ 2 (fun j => j) (fun j => min j 5) (by decide)

/-- C7: for every `size >= 2`, `createSolvedPuzzle` returns the canonical solved layout —
cell `(r, c)` holds `r*size + c + 1` except the last cell, which holds `0` — with the
blank cached at `(size-1, size-1)`; in particular `createSolvedPuzzle 3` yields
`[[1,2,3],[4,5,6],[7,8,0]]` with `emptyRow = emptyCol = 2`. -/
theorem claim7_createSolved_canonical (size : Int) (hsz : 2 ≤ size) :
    ∃ s, createSolvedPuzzle size = some s ∧ s.emptyRow = size - 1 ∧ s.emptyCol = size - 1 ∧
      s.size = size ∧
      (∀ r c : Int, 0 ≤ r → r < size → 0 ≤ c → c < size →
        readCell s.grid r c = if r = size - 1 ∧ c = size - 1 then some (some 0)
          else some (some (r * size + c + 1))) ∧
      createSolvedPuzzle 3 = some (PuzzleState.mk [[some 1, some 2, some 3],
        [some 4, some 5, some 6], [some 7, some 8, some 0]] 2 2 3) := by
  obtain ⟨s, h1, h2, h3, h4, hrect, h5⟩ := createSolved_readCell size (by omega)
  exact ⟨s, h1, h2, h3, h4, h5, by decide⟩

/-- Witness for C7 at `size = 3`. -/
theorem claim7_witness :
    ∃ s, createSolvedPuzzle 3 = some s ∧ s.emptyRow = 3 - 1 ∧ s.emptyCol = 3 - 1 ∧
      s.size = 3 ∧
      (∀ r c : Int, 0 ≤ r → r < 3 → 0 ≤ c → c < 3 →
        readCell s.grid r c = if r = 3 - 1 ∧ c = 3 - 1 then some (some 0)
          else some (some (r * 3 + c + 1))) ∧
      createSolvedPuzzle 3 = some (PuzzleState.mk [[some 1, some 2, some 3],
        [some 4, some 5, some 6], [some 7, some 8, some 0]] 2 2 3) :=
  claim7_createSolved_canonical 3 (by decide)

theorem isSolved_true_iff (s : PuzzleState) (hinv : Invariant s) :
    ∃ solved, createSolvedPuzzle s.size = some solved ∧
      (isSolved s = some true ↔ ∀ r c : Int, 0 ≤ r → r < s.size → 0 ≤ c → c < s.size →
        readCell s.grid r c = readCell solved.grid r c) := by
  obtain ⟨hpos, hlen, hrows, hperm, he1, he2, he3, he4, hblank⟩ := hinv
  obtain ⟨solved, hcs, hser, hsec, hssz, hsrect, hsread⟩ :=
    createSolved_readCell s.size (by omega)
  refine ⟨solved, hcs, ?_⟩
  unfold isSolved
  rw [hcs]
  dsimp only
  have hsome : ∀ p ∈ coordList s.size.toNat,
      (readCell s.grid p.1 p.2).isSome ∧ (readCell solved.grid p.1 p.2).isSome := by
    rintro ⟨r, c⟩ hp
    rw [mem_coordList] at hp
    obtain ⟨h1, h2, h3, h4⟩ := hp
    constructor
    · rw [readCell_inRange s.grid r c h1 (by rw [hlen]; omega)]
      rfl
    · rw [readCell_inRange solved.grid r c h1 (by rw [hsrect.1]; omega)]
      rfl
  rw [isSolvedAux_true_iff s solved _ hsome]
  constructor
  · intro hall r c h1 h2 h3 h4
    exact hall (r, c) (by rw [mem_coordList]; exact ⟨h1, by omega, h3, by omega⟩)
  · rintro hall ⟨r, c⟩ hp
    rw [mem_coordList] at hp
    obtain ⟨h1, h2, h3, h4⟩ := hp
    exact hall r c h1 (by omega) h3 (by omega)

/-- C8: `isSolved` is true exactly when every cell of the grid equals the corresponding
cell of the canonical solved layout for `state.size` (a cell-by-cell comparison, not a
check of the cached blank position); `isSolved` holds of `createSolvedPuzzle size` for
every buildable size, and fails on the state obtained from the solved 3-by-3 state by
moving the tile at `(2, 1)`. -/
theorem claim8_isSolved_cellwise :
    (∀ s : PuzzleState, Invariant s →
      ∃ solved, createSolvedPuzzle s.size = some solved ∧
        (isSolved s = some true ↔ ∀ r c : Int, 0 ≤ r → r < s.size → 0 ≤ c → c < s.size →
          readCell s.grid r c = readCell solved.grid r c)) ∧
    (∀ size : Int, 1 ≤ size → ∀ t, createSolvedPuzzle size = some t →
      isSolved t = some true) ∧
    (∃ s3 m, createSolvedPuzzle 3 = some s3 ∧ movePiece s3 2 1 = MoveResult.ok m ∧
      isSolved m = some false) := by
  refine ⟨isSolved_true_iff, ?_, ?_⟩
  · intro size hsz t hct
    obtain ⟨s0, hcs, hser, hsec, hssz, hsrect, hsread⟩ := createSolved_readCell size hsz
    rw [hct] at hcs
    obtain rfl : t = s0 := Option.some.inj hcs
    unfold isSolved
    rw [hssz, hct]
    dsimp only
    have hsome : ∀ p ∈ coordList size.toNat,
        (readCell t.grid p.1 p.2).isSome ∧ (readCell t.grid p.1 p.2).isSome := by
      rintro ⟨r, c⟩ hp
      rw [mem_coordList] at hp
      obtain ⟨h1, h2, h3, h4⟩ := hp
      have : (readCell t.grid r c).isSome := by
        rw [readCell_inRange t.grid r c h1 (by rw [hsrect.1]; omega)]
        rfl
      exact ⟨this, this⟩
    exact (isSolvedAux_true_iff t t _ hsome).mpr (fun p hp => rfl)
  · refine ⟨PuzzleState.mk [[some 1, some 2, some 3], [some 4, some 5, some 6],
      [some 7, some 8, some 0]] 2 2 3,
      PuzzleState.mk [[some 1, some 2, some 3], [some 4, some 5, some 6],
      [some 7, some 0, some 8]] 2 1 3, ?_, ?_, ?_⟩
    · decide
    · decide
    · decide

/-- Witness for C8: the solved 3-by-3 state passes the completion check. -/
theorem claim8_witness :
    isSolved (PuzzleState.mk [[some 1, some 2, some 3], [some 4, some 5, some 6],
      [some 7, some 8, some 0]] 2 2 3) = some true :=
  claim8_isSolved_cellwise.2.1 3 (by decide) _ (by decide)

/-- C9: for every state and every `steps <= 0`, `shufflePuzzle` runs zero loop
iterations and returns a state equal to the input (the initial copy, identical in grid
contents, blank coordinates, and size), for any randomness stream. -/
theorem claim9_shuffle_nonpositive (s : PuzzleState) (steps : Int) (rng : Nat → Nat)
    (h : steps ≤ 0) :
    shufflePuzzle s steps rng = some s := by
  unfold shufflePuzzle
  rw [Int.toNat_of_nonpos h]
  rfl

/-- Witness for C9 at scenario D: zero steps from the solved 3-by-3 state. -/
theorem claim9_witness :
    shufflePuzzle (PuzzleState.mk [[some 1, some 2, some 3], [some 4, some 5, some 6],
        [some 7, some 8, some 0]] 2 2 3) 0 (fun _ => 0)
      = some (PuzzleState.mk [[some 1, some 2, some 3], [some 4, some 5, some 6],
        [some 7, some 8, some 0]] 2 2 3) :=
  claim9_shuffle_nonpositive _ 0 (fun _ => 0) (by decide)

/-- C10: `canMove` depends only on `(row, col)` and the cached blank coordinates — never
on the grid contents or `size` — and performs no bounds check: whenever the blank sits on
a grid edge, the out-of-grid coordinate orthogonally adjacent across that edge passes
`canMove`. -/
theorem claim10_canMove_no_bounds (s s' : PuzzleState) (row col : Int)
    (her : s'.emptyRow = s.emptyRow) (hec : s'.emptyCol = s.emptyCol) :
    canMove s' row col = canMove s row col ∧
    (s.emptyRow = 0 → canMove s (-1) s.emptyCol = true) ∧
    (s.emptyRow = s.size - 1 → canMove s s.size s.emptyCol = true) ∧
    (s.emptyCol = 0 → canMove s s.emptyRow (-1) = true) ∧
    (s.emptyCol = s.size - 1 → canMove s s.emptyRow s.size = true) := by
  refine ⟨?_, ?_, ?_, ?_, ?_⟩
  · unfold canMove
    rw [her, hec]
  · intro h
    rw [canMove_iff]
    omega
  · intro h
    rw [canMove_iff]
    omega
  · intro h
    rw [canMove_iff]
    omega
  · intro h
    rw [canMove_iff]
    omega

/-- Witness for C10: on the one-cell board the blank sits on all four edges at once, and
a state with an empty grid and a different size agrees with it on `canMove`. -/
theorem claim10_witness :
    canMove (PuzzleState.mk [] 0 0 42) 5 7 = canMove (PuzzleState.mk [[some 0]] 0 0 1) 5 7 ∧
    canMove (PuzzleState.mk [[some 0]] 0 0 1) (-1) 0 = true ∧
    canMove (PuzzleState.mk [[some 0]] 0 0 1) 1 0 = true ∧
    canMove (PuzzleState.mk [[some 0]] 0 0 1) 0 (-1) = true ∧
    canMove (PuzzleState.mk [[some 0]] 0 0 1) 0 1 = true := by
  have h := claim10_canMove_no_bounds (PuzzleState.mk [[some 0]] 0 0 1)
    (PuzzleState.mk [] 0 0 42) 5 7 rfl rfl
  exact ⟨h.1, h.2.1 rfl, h.2.2.1 (by decide), h.2.2.2.1 rfl, h.2.2.2.2 (by decide)⟩
